import Mathlib

set_option maxHeartbeats 1000000

/-
Verification development for the SpreadsheetHelper indexed tabular record
store (src/SpreadsheetHelper.ts).  The source contains two store variants:
the legacy `SheetObject` (with `RowObject` handles, `getSheetRowsAsObjects`,
`addToIndex`, `addRows`) and the newer `SheetTable<T>` (with `SheetRow`
handles, `attachRow`, `addRecords`).  Both are embedded below as pure
state-passing functions.  The external grid collaborator (Google Sheets
ranges) is embedded as an explicit rectangle of cell values carried in the
state; reads and writes on it mirror the Range calls the source makes.
-/

namespace SpreadsheetHelper

/-- Cell values stored in the grid: text, number, boolean, or a temporal
value (`CellVal = string | number | boolean | Date`).  A temporal value is
represented by its ISO-8601 serialization, the text `Date.prototype.toJSON`
yields, which determines the underlying time value. -/
inductive CellValue
  | str (s : String)
  | num (n : Int)
  | bool (b : Bool)
  | date (iso : String)
deriving DecidableEq, Repr

/-- A record field value; `none` models JS `null` (and `undefined`: every
use site in the source treats the two identically — `== null` checks,
`?? null` defaulting, and serialization inside a JSON array). -/
abbrev RowRecordValue := Option CellValue

/-- An in-memory record: field name to value, in field insertion order
(a JS plain object). -/
abbrev RowRecord := List (String × RowRecordValue)

/-- JS `Map.get` / object property read over an association list (first
match wins; in every reachable state keys are unique). -/
def mapGet {K V : Type} [DecidableEq K] : List (K × V) → K → Option V
  | [], _ => none
  | (k', v) :: rest, k => if k' = k then some v else mapGet rest k

/-- JS `Map.set` / object property write: replace the entry in place, or
append a fresh one at the end. -/
def mapSet {K V : Type} [DecidableEq K] : List (K × V) → K → V → List (K × V)
  | [], k, v => [(k, v)]
  | (k', v') :: rest, k, v =>
    if k' = k then (k, v) :: rest else (k', v') :: mapSet rest k v

/-- Field access `record[h]`: an absent field (`undefined`) behaves exactly
as `null` at every use site modelled here, so both map to `none`. -/
def recordGet (r : RowRecord) (h : String) : RowRecordValue :=
  match mapGet r h with
  | some v => v
  | none => none

/-- First-occurrence deduplication, `Array.from(new Set(xs))`. -/
def uniqFirstAux {A : Type} [DecidableEq A] : List A → List A → List A
  | _, [] => []
  | seen, a :: rest =>
    if a ∈ seen then uniqFirstAux seen rest else a :: uniqFirstAux (a :: seen) rest

/-- `Array.from(new Set(xs))`: the list of distinct elements in first
occurrence order. -/
def uniqFirst {A : Type} [DecidableEq A] (l : List A) : List A :=
  uniqFirstAux [] l

/-- The JSON value a cell value denotes under `JSON.stringify`.  The record
index keys the source builds with `JSON.stringify(keyValues)` are embedded
as the denoted JSON array: `stringify` is deterministic and injective on
arrays of these flat values, so string equality of hashes coincides with
equality of the denoted arrays.  A `Date` element serializes through its
`toJSON` method into its ISO text, i.e. into a JSON string. -/
inductive Json
  | null
  | str (s : String)
  | num (n : Int)
  | bool (b : Bool)
deriving DecidableEq, Repr

/-- One element of a stringified array: `null`/`undefined` serialize to JSON
`null`, a `Date` to the JSON string holding its ISO text. -/
def toJson : RowRecordValue → Json
  | none => .null
  | some (.str s) => .str s
  | some (.num n) => .num n
  | some (.bool b) => .bool b
  | some (.date iso) => .str iso

/-- Identify a temporal value with the text of its ISO serialization; the
identity on every other value. -/
def canonValue : RowRecordValue → RowRecordValue
  | some (.date iso) => some (.str iso)
  | some (.str s) => some (.str s)
  | some (.num n) => some (.num n)
  | some (.bool b) => some (.bool b)
  | none => none

/-- Encoding one cell for a grid write: `cellVal == null ? '' : cellVal`. -/
def encodeCell (v : RowRecordValue) : CellValue :=
  match v with
  | none => .str ""
  | some c => c

/-- Decoding one present cell: `val === '' ? null : val`. -/
def decodeCellValue (c : CellValue) : RowRecordValue :=
  if c = .str "" then none else some c

/-- Decode a raw grid row against the header (the constructor loop over
`this.headerColumn.keys()`): field number `i` reads the cell at its 1-based
column ordinal `i + 1` — ordinals are assigned left to right in header
order — with an absent cell (`?? null`) decoding to `null`. -/
def decodeRow : List String → List CellValue → RowRecord
  | [], _ => []
  | h :: hs, [] => (h, none) :: decodeRow hs []
  | h :: hs, c :: cs => (h, decodeCellValue c) :: decodeRow hs cs

/-- `SheetTable.getValues`: encode a record into a raw row in header order,
substituting empty text for `null` and for absent fields. -/
def getValues (headers : List String) (record : RowRecord) : List CellValue :=
  headers.map (fun h => encodeCell (recordGet record h))

/-- A row handle (`SheetRow<T>`): `id` models JS object identity (what
`Set.has` compares), `record` the current in-memory record, `line` the
fixed 1-based physical sheet row. -/
structure SheetRow where
  id : Nat
  record : RowRecord
  line : Nat
deriving DecidableEq, Repr

/-- The mutable state of one `SheetTable` instance.  `grid` is the backing
sheet's occupied rectangle, `grid` row 1 being the header row; `rows` the
insertion-ordered handle set; `keyMap` the record index `rowByKeyMap`;
`lastRow` the `this.lastRow` counter; `rangeLastRow` the row extent of the
cached `this.range`; `nextId` the allocator for handle identities.
(`rowByRecordWeakMap` is not modelled: it is only read back by
`getRowByRecord`, which no claim involves.) -/
structure TableState where
  grid : List (List CellValue)
  headers : List String
  rows : List SheetRow
  keyMap : List (List Json × Nat)
  lastRow : Nat
  rangeLastRow : Nat
  nextId : Nat
deriving DecidableEq, Repr

/-- `SheetTable.getRecordHash` on a record: the JSON array of the key-field
values in configured order.  (The source's guard that key headers are
configured is established at every call site modelled here.) -/
def getRecordHash (kh : List String) (record : RowRecord) : List Json :=
  kh.map (fun h => toJson (recordGet record h))

/-- The line number of the handle with a given identity (used for the
duplicate-key error message: `existRow.getLine()`). -/
def lineOfId (s : TableState) (i : Nat) : Nat :=
  match s.rows.find? (fun r => r.id == i) with
  | some r => r.line
  | none => 0

/-- Result of `attachRow`: success, or the thrown duplicate-key error
carrying the two conflicting line numbers together with the state the
instance is left in (a JS throw does not roll the mutations back). -/
inductive AttachResult
  | ok (s : TableState)
  | dupKey (s : TableState) (existLine newLine : Nat)
deriving DecidableEq, Repr

/-- The `rows.add` prefix of `attachRow`: a handle not yet in the set (by
identity) is appended; `isNewRow` is this same membership test. -/
def attachRowsOnly (s : TableState) (row : SheetRow) : TableState :=
  if s.rows.all (fun r => r.id != row.id) then { s with rows := s.rows ++ [row] } else s

/-- `SheetTable.attachRow`: record the handle in the row set, then — when key
headers are configured and not every key field of the record is null —
index it, throwing the duplicate-key error exactly when the handle is new
to the row set and the key is already present; an already-attached handle
re-writes the mapping unconditionally (`rowByKeyMap.set`). -/
def attachRow (kh : List String) (s : TableState) (row : SheetRow) : AttachResult :=
  if kh = [] then .ok (attachRowsOnly s row)
  else if kh.all (fun h => (recordGet row.record h).isNone) then .ok (attachRowsOnly s row)
  else
    match mapGet s.keyMap (getRecordHash kh row.record) with
    | some existId =>
      if s.rows.all (fun r => r.id != row.id) then
        .dupKey (attachRowsOnly s row) (lineOfId (attachRowsOnly s row) existId) row.line
      else .ok { attachRowsOnly s row with keyMap := mapSet s.keyMap (getRecordHash kh row.record) row.id }
    | none => .ok { attachRowsOnly s row with keyMap := mapSet s.keyMap (getRecordHash kh row.record) row.id }

/-- Result of building a batch of internal rows. -/
inductive RowsResult
  | ok (s : TableState) (newRows : List SheetRow)
  | dupKey (s : TableState) (existLine newLine : Nat)
deriving DecidableEq, Repr

/-- `SheetTable.createInternalRows`: record number `index` becomes a
`SheetRow` at line `lastRow + index + 1` with a fresh identity; the
`SheetRow` constructor runs the change hook (`attachRow`) immediately, so a
duplicate key aborts the remaining constructions mid-batch. -/
def createRowsGo (kh : List String) (lastRow : Nat) (s : TableState) (records : List RowRecord) (index : Nat) (acc : List SheetRow) : RowsResult :=
  match records with
  | [] => .ok s acc
  | rec :: rest =>
    match attachRow kh { s with nextId := s.nextId + 1 } ⟨s.nextId, rec, lastRow + index + 1⟩ with
    | .ok s2 => createRowsGo kh lastRow s2 rest (index + 1) (acc ++ [⟨s.nextId, rec, lastRow + index + 1⟩])
    | .dupKey s2 el nl => .dupKey s2 el nl

/-- `Range.setValues` on `range.offset(start, 0, …)` for a cached range
anchored at sheet row 1: overwrite rows `start+1 …` in place, extending the
occupied rectangle as needed. -/
def setValuesAt (grid : List (List CellValue)) (start : Nat) (vs : List (List CellValue)) : List (List CellValue) :=
  (grid.take start ++ List.replicate (start - grid.length) []) ++ vs ++ grid.drop (start + vs.length)

/-- Result of `addRecords`. -/
inductive AddResult
  | ok (s : TableState) (newRows : List SheetRow)
  | dupKey (s : TableState) (existLine newLine : Nat)
  | emptyInput (s : TableState)
deriving DecidableEq, Repr

/-- `SheetTable.addRecords`: encode every record, read the cached range's
row extent, write the encoded block at row offset `this.lastRow` (before
any index validation — the write-before-validate policy), refresh
`this.lastRow` and the cached range from the re-read sheet extent, then
build and absorb the new handles at lines `rangeLastRow + index + 1`.  An
empty batch hits `values[0].length` — an unguarded TypeError — before the
write, leaving every part of the state untouched. -/
def addRecords (kh : List String) (s : TableState) (records : List RowRecord) : AddResult :=
  match records.map (fun r => getValues s.headers r) with
  | [] => .emptyInput s
  | v0 :: vrest =>
    match createRowsGo kh s.rangeLastRow
        { s with
            grid := setValuesAt s.grid s.lastRow (v0 :: vrest),
            lastRow := (setValuesAt s.grid s.lastRow (v0 :: vrest)).length,
            rangeLastRow := (setValuesAt s.grid s.lastRow (v0 :: vrest)).length }
        records 0 [] with
    | .ok s2 out => .ok s2 out
    | .dupKey s2 el nl => .dupKey s2 el nl

/-- Result of `getRowByKey`. -/
inductive KeyLookupResult
  | notIndexed
  | arityMismatch (got expected : Nat)
  | result (row : Option Nat)
deriving DecidableEq, Repr

/-- `SheetTable.getRowByKey` with the key already in array form (a scalar
key is wrapped into the singleton array first). -/
def getRowByKey (kh : List String) (s : TableState) (key : List RowRecordValue) : KeyLookupResult :=
  if kh = [] then .notIndexed
  else if key.length ≠ kh.length then .arityMismatch key.length kh.length
  else .result (mapGet s.keyMap (key.map toJson))

/-- `this.headerColumn.get(h)`: the 1-based column ordinal of a header
name (header names are pairwise distinct in every constructed table). -/
def headerColumnOf : List String → String → Option Nat
  | [], _ => none
  | h' :: rest, h => if h' = h then some 1 else (headerColumnOf rest h).map (· + 1)

/-- Replace the element at a 0-based position, when present. -/
def listSetAt {A : Type} : List A → Nat → A → List A
  | [], _, _ => []
  | _ :: rest, 0, a => a :: rest
  | x :: rest, Nat.succ i, a => x :: listSetAt rest i a

/-- `range.getCell(line, col).setValue(v)` with 1-based coordinates. -/
def writeCell (grid : List (List CellValue)) (line col : Nat) (v : CellValue) : List (List CellValue) :=
  match grid.get? (line - 1) with
  | some rowVals => listSetAt grid (line - 1) (listSetAt rowVals (col - 1) v)
  | none => grid

/-- Result of `SheetRow.setValue`. -/
inductive SetValueResult
  | ok (s : TableState)
  | dupKey (s : TableState) (existLine newLine : Nat)
  | headerNotFound (s : TableState)
deriving DecidableEq, Repr

/-- The object mutation `this.rowRecord = …` as seen through the `rows`
set: the handle with the same identity now carries the new record. -/
def updateRowEntry (rows : List SheetRow) (row : SheetRow) : List SheetRow :=
  rows.map (fun r => if r.id = row.id then row else r)

/-- `SheetRow.setValue`: resolve the column (`getHeaderColumn` throws first
if the header is unknown, before anything is written), write the encoded
value to the backing cell, replace the in-memory record, then re-run
`attachRow` on the updated handle. -/
def setValue (kh : List String) (s : TableState) (row : SheetRow) (h : String) (v : RowRecordValue) : SetValueResult :=
  match headerColumnOf s.headers h with
  | none => .headerNotFound s
  | some col =>
    match attachRow kh
        { s with
            grid := writeCell s.grid row.line col (encodeCell v),
            rows := updateRowEntry s.rows { row with record := mapSet row.record h v } }
        { row with record := mapSet row.record h v } with
    | .ok s2 => .ok s2
    | .dupKey s2 el nl => .dupKey s2 el nl

/-- Whether a header cell is text. -/
def isStringCell : CellValue → Bool
  | .str _ => true
  | _ => false

/-- The string a header cell contributes as an object key (JS property-key
coercion; after validation every header cell is text, making this the
identity on the reachable inputs). -/
def cellName : CellValue → String
  | .str s => s
  | .num n => toString n
  | .bool b => cond b "true" "false"
  | .date iso => iso

/-- `headers.some(h => h === '')`. -/
def hasEmptyHeader (row : List CellValue) : Bool :=
  row.any (fun h => decide (h = .str ""))

/-- `headers.some(h => typeof h !== 'string')` (the source tests the
deduplicated list, which holds exactly the same elements). -/
def hasNonStringHeader (row : List CellValue) : Bool :=
  row.any (fun h => !isStringCell h)

/-- `headers.length !== Array.from(new Set(headers)).length`. -/
def hasDuplicateHeader (row : List CellValue) : Bool :=
  decide ((uniqFirst row).length ≠ row.length)

/-- The construction-time failures of `SheetTable` (sheet resolution and
frozen-row verification concern only the external collaborator and are not
reached by any claim). -/
inductive TableError
  | emptyTable
  | emptyHeader
  | nonStringHeader
  | duplicateHeader
  | missingMandatoryHeaders (lost : List String)
  | duplicateKey (existLine newLine : Nat)
deriving DecidableEq, Repr

/-- The `SheetTable` constructor from the raw occupied rectangle, in source
order: emptiness of the extent, header shape (empty cell, then non-string
cell, then duplicate), mandatory/key headers against the discovered ordinal
map, then decode every data row and absorb every handle (lines `index + 2`,
i.e. `createInternalRows(records, 1)`).  A duplicate key here aborts
construction, so no store and no handles exist. -/
def construct (mandatoryHeaders : List String) (kh : List String) (values : List (List CellValue)) : Except TableError TableState :=
  match values with
  | [] => .error .emptyTable
  | headerRow :: dataRows =>
    if headerRow.isEmpty then .error .emptyTable
    else if hasEmptyHeader headerRow then .error .emptyHeader
    else if hasNonStringHeader headerRow then .error .nonStringHeader
    else if hasDuplicateHeader headerRow then .error .duplicateHeader
    else
      let headers := headerRow.map cellName
      let lost := (uniqFirst (kh ++ mandatoryHeaders)).filter (fun h => !headers.contains h)
      if lost.isEmpty then
        match createRowsGo kh 1
            { grid := headerRow :: dataRows, headers := headers, rows := [], keyMap := [],
              lastRow := (headerRow :: dataRows).length,
              rangeLastRow := (headerRow :: dataRows).length, nextId := 0 }
            (dataRows.map (decodeRow headers)) 0 [] with
        | .ok s _ => .ok s
        | .dupKey _ el nl => .error (.duplicateKey el nl)
      else .error (.missingMandatoryHeaders lost)

/-- A legacy-variant row handle (`RowObject` over a `SheetRowObj`): the
decoded record plus the 0-based iteration index and 1-based line the
transformer stamped on it. -/
structure ObjRow where
  record : RowRecord
  index : Nat
  line : Nat
deriving DecidableEq, Repr

/-- The construction/append failures of the legacy `SheetObject` variant. -/
inductive ObjError
  | duplicateHeader
  | nonStringHeader
  | emptyHeader
  | duplicateKey (existLine newLine : Nat)
deriving DecidableEq, Repr

/-- `defaultSheetRowsTransformer`: pair each cell with its header name
(rows of the occupied rectangle are exactly header-width), empty text
decoding to `null`; `index` is the 1-based position in the value rows and
`line` is `index + 1`. -/
def transformRow (header : List CellValue) (row : List CellValue) (index : Nat) : ObjRow :=
  { record := (header.zip row).map (fun p => (cellName p.1, decodeCellValue p.2)),
    index := index, line := index + 1 }

/-- `getSheetRowsAsObjects`: NOTE the early return — a grid whose value
rectangle has exactly one row (the header alone) yields `[]` before any
header validation runs.  Otherwise the header is validated (duplicate,
then non-string, then empty — this variant's order) and every data row is
transformed.  (The `[]` case is unreachable: `getSheetTableRange` rejects
an empty sheet first.) -/
def getSheetRowsAsObjects (values : List (List CellValue)) : Except ObjError (List ObjRow) :=
  if values.length = 1 then .ok []
  else
    match values with
    | [] => .ok []
    | header :: dataRows =>
      if hasDuplicateHeader header then .error .duplicateHeader
      else if hasNonStringHeader header then .error .nonStringHeader
      else if hasEmptyHeader header then .error .emptyHeader
      else .ok (dataRows.enum.map (fun p => transformRow header p.2 (p.1 + 1)))

/-- `SheetObject.getRowKey`: the JSON array of the key header values in
configured order.  This variant has no all-null exclusion: a row whose key
fields are all null gets the all-null key. -/
def getRowKey (kh : List String) (r : ObjRow) : List Json :=
  kh.map (fun h => toJson (recordGet r.record h))

/-- The `addToIndex` loop of `SheetObject`: fail on the first key already
present (unconditionally — this variant never refreshes a mapping), else
`Map.set`; on failure the successfully inserted prefix stays in the map. -/
def indexAllGo (kh : List String) (m : List (List Json × ObjRow)) : List ObjRow → (List (List Json × ObjRow)) × Option (Nat × Nat)
  | [] => (m, none)
  | r :: rest =>
    match mapGet m (getRowKey kh r) with
    | some exist => (m, some (exist.line, r.line))
    | none => indexAllGo kh (mapSet m (getRowKey kh r) r) rest

/-- The state of one `SheetObject` instance: the backing rectangle, the raw
header row, the handles, the key index `rowsByKeysMap`, and `this.lastRow`. -/
structure ObjState where
  grid : List (List CellValue)
  header : List CellValue
  rows : List ObjRow
  rowsByKeysMap : List (List Json × ObjRow)
  lastRow : Nat
deriving DecidableEq, Repr

/-- The `SheetObject` constructor (sheet resolution and frozen-row checks
are the external collaborator's; the default `rowsFilter` keeps every
row).  NOTE: this variant validates neither mandatory nor key headers
against the discovered header, and indexes every row — all-null keys
included — whenever key headers are configured. -/
def objConstruct (kh : List String) (values : List (List CellValue)) : Except ObjError ObjState :=
  match getSheetRowsAsObjects values with
  | .error e => .error e
  | .ok objRows =>
    if kh = [] then
      .ok { grid := values, header := values.headD [], rows := objRows,
            rowsByKeysMap := [], lastRow := values.length }
    else
      match indexAllGo kh [] objRows with
      | (_, some p) => .error (.duplicateKey p.1 p.2)
      | (m, none) =>
        .ok { grid := values, header := values.headD [], rows := objRows,
              rowsByKeysMap := m, lastRow := values.length }

/-- Result of `SheetObject.getRowByKey`. -/
inductive ObjKeyLookupResult
  | notIndexed
  | arityMismatch (got expected : Nat)
  | result (row : Option ObjRow)
deriving DecidableEq, Repr

/-- `SheetObject.getRowByKey` with the key in array form (a scalar key is
wrapped into the singleton array): `rowsByKeysMap.get(JSON.stringify(rowKeys))`. -/
def objGetRowByKey (kh : List String) (st : ObjState) (key : List RowRecordValue) : ObjKeyLookupResult :=
  if kh = [] then .notIndexed
  else if key.length ≠ kh.length then .arityMismatch key.length kh.length
  else .result (mapGet st.rowsByKeysMap (key.map toJson))

/-- Result of `SheetObject.addRows`. -/
inductive ObjAddResult
  | ok (st : ObjState) (newRows : List ObjRow)
  | dupKey (st : ObjState) (existLine newLine : Nat)
  | emptyInput (st : ObjState)
deriving DecidableEq, Repr

/-- `SheetObject.addRows`: encode each record against the raw header, hit
`values[0].length` (an unguarded TypeError on an empty batch, before any
write), write the block at row offset `this.lastRow`, advance the counter,
build the new handles (`index` `startRow + i`, `line` `startRow + i + 1`,
record spread from the input), append them all to `rows`, then — when
indexed — absorb them one by one, a duplicate key aborting mid-loop with
every new handle already in `rows` and the successful prefix indexed. -/
def objAddRows (kh : List String) (st : ObjState) (rows : List RowRecord) : ObjAddResult :=
  match rows.map (fun row => st.header.map (fun h => encodeCell (recordGet row (cellName h)))) with
  | [] => .emptyInput st
  | v0 :: vrest =>
    let rowObjects : List ObjRow :=
      rows.enum.map (fun p => ObjRow.mk p.2 (st.lastRow + p.1) (st.lastRow + p.1 + 1))
    let st2 : ObjState :=
      { st with
          grid := setValuesAt st.grid st.lastRow (v0 :: vrest),
          lastRow := st.lastRow + (v0 :: vrest).length,
          rows := st.rows ++ rowObjects }
    if kh = [] then .ok st2 rowObjects
    else
      match indexAllGo kh st2.rowsByKeysMap rowObjects with
      | (m, none) => .ok { st2 with rowsByKeysMap := m } rowObjects
      | (m, some p) => .dupKey { st2 with rowsByKeysMap := m } p.1 p.2

/-! Helper lemmas shared by the claim theorems. -/

theorem toJson_eq_iff_canon (v w : RowRecordValue) :
    toJson v = toJson w ↔ canonValue v = canonValue w := by
  rcases v with _ | (s | n | b | d) <;> rcases w with _ | (s' | n' | b' | d') <;>
    simp [toJson, canonValue]

theorem toJson_map_eq_iff : ∀ vs ws : List RowRecordValue,
    vs.map toJson = ws.map toJson ↔ vs.map canonValue = ws.map canonValue := by
  intro vs
  induction vs with
  | nil => intro ws; cases ws <;> simp
  | cons v vs ih =>
    intro ws
    cases ws with
    | nil => simp
    | cons w ws => simp [toJson_eq_iff_canon, ih]

theorem recordGet_nil (h : String) : recordGet [] h = none := rfl

theorem recordGet_cons_self (h : String) (v : RowRecordValue) (l : RowRecord) :
    recordGet ((h, v) :: l) h = v := by
  simp [recordGet, mapGet]

theorem recordGet_cons_ne (h h' : String) (v : RowRecordValue) (l : RowRecord)
    (hne : h ≠ h') : recordGet ((h, v) :: l) h' = recordGet l h' := by
  simp [recordGet, mapGet, hne]

theorem getValues_cons_irrelevant (hs : List String) (h : String) (v : RowRecordValue)
    (l : RowRecord) (hnm : h ∉ hs) :
    getValues hs ((h, v) :: l) = getValues hs l := by
  unfold getValues
  apply List.map_congr_left
  intro a ha
  rw [recordGet_cons_ne h a v l (fun e => hnm (e ▸ ha))]

theorem getValues_zip : ∀ (hs : List String) (vs : List RowRecordValue),
    hs.Nodup → vs.length = hs.length →
    getValues hs (hs.zip vs) = vs.map encodeCell := by
  intro hs
  induction hs with
  | nil =>
    intro vs _ hl
    cases vs with
    | nil => rfl
    | cons v vs => simp at hl
  | cons h hs ih =>
    intro vs hnd hl
    cases vs with
    | nil => simp at hl
    | cons v vs =>
      have hnm : h ∉ hs := (List.nodup_cons.mp hnd).1
      have htl : getValues hs ((h, v) :: hs.zip vs) = getValues hs (hs.zip vs) :=
        getValues_cons_irrelevant hs h v (hs.zip vs) hnm
      calc getValues (h :: hs) ((h :: hs).zip (v :: vs))
          = encodeCell (recordGet ((h, v) :: hs.zip vs) h) :: getValues hs ((h, v) :: hs.zip vs) := rfl
        _ = encodeCell v :: getValues hs (hs.zip vs) := by
              rw [recordGet_cons_self, htl]
        _ = (v :: vs).map encodeCell := by
              rw [ih vs (List.nodup_cons.mp hnd).2 (by simpa using hl)]
              rfl

theorem decodeCellValue_encodeCell (v : RowRecordValue) (hv : v ≠ some (CellValue.str "")) :
    decodeCellValue (encodeCell v) = v := by
  cases v with
  | none => simp [encodeCell, decodeCellValue]
  | some c =>
    have hc : c ≠ CellValue.str "" := fun e => hv (by rw [e])
    simp [encodeCell, decodeCellValue, hc]

theorem decodeRow_map_encode : ∀ (hs : List String) (vs : List RowRecordValue),
    vs.length = hs.length → (∀ v ∈ vs, v ≠ some (CellValue.str "")) →
    decodeRow hs (vs.map encodeCell) = hs.zip vs := by
  intro hs
  induction hs with
  | nil =>
    intro vs hl _
    cases vs with
    | nil => rfl
    | cons v vs => simp at hl
  | cons h hs ih =>
    intro vs hl hv
    cases vs with
    | nil => simp at hl
    | cons v vs =>
      have hhd : decodeCellValue (encodeCell v) = v :=
        decodeCellValue_encodeCell v (hv v (by simp))
      calc decodeRow (h :: hs) ((v :: vs).map encodeCell)
          = (h, decodeCellValue (encodeCell v)) :: decodeRow hs (vs.map encodeCell) := rfl
        _ = (h, v) :: hs.zip vs := by
              rw [hhd, ih vs (by simpa using hl) (fun x hx => hv x (by simp [hx]))]
        _ = (h :: hs).zip (v :: vs) := rfl

/-! Claim theorems (easy group). -/

/-- C4: round-trip of the record codec — for every schema (distinct headers)
and every record over exactly those fields whose values are not empty text,
decoding the encoded row yields the original record; and encode is total,
a record with no fields (so every field is missing) encoding to a row of
empty text cells. -/
theorem claim4_roundtrip (hs : List String) (vs : List RowRecordValue)
    (hnd : hs.Nodup) (hl : vs.length = hs.length)
    (hv : ∀ v ∈ vs, v ≠ some (CellValue.str "")) :
    decodeRow hs (getValues hs (hs.zip vs)) = hs.zip vs ∧
    getValues hs [] = hs.map (fun _ => CellValue.str "") := by
  constructor
  · rw [getValues_zip hs vs hnd hl, decodeRow_map_encode hs vs hl hv]
  · simp [getValues, recordGet, mapGet, encodeCell]

/-- C4 witness: the round trip behaves as proved on a concrete two-field
record holding a number and a null. -/
theorem claim4_witness :
    decodeRow ["id", "name"]
        (getValues ["id", "name"] (["id", "name"].zip [some (CellValue.num 1), none])) =
      ["id", "name"].zip [some (CellValue.num 1), none] ∧
    getValues ["id", "name"] [] = ["id", "name"].map (fun _ => CellValue.str "") :=
  claim4_roundtrip ["id", "name"] [some (CellValue.num 1), none]
    (by decide) (by decide) (by decide)

/-- C9 (amended): the record index treats two records as carrying the same
key exactly when their key-field value sequences are equal after
identifying each temporal value with the text of its ISO serialization —
i.e. `JSON.stringify` equality; on date-free values this is structural
equality, but a temporal value and the text of its serialization ARE
identified, contrary to the claim's "never identified". -/
theorem claim9_amended (kh : List String) (r1 r2 : RowRecord) :
    getRecordHash kh r1 = getRecordHash kh r2 ↔
      kh.map (fun h => canonValue (recordGet r1 h)) =
        kh.map (fun h => canonValue (recordGet r2 h)) := by
  have h1 : getRecordHash kh r1 = (kh.map (fun h => recordGet r1 h)).map toJson := by
    simp [getRecordHash, List.map_map, Function.comp]
  have h2 : getRecordHash kh r2 = (kh.map (fun h => recordGet r2 h)).map toJson := by
    simp [getRecordHash, List.map_map, Function.comp]
  rw [h1, h2, toJson_map_eq_iff]
  simp [List.map_map, Function.comp]

/-- C9 counterexample: a record holding a temporal key value and a record
holding the text of its ISO serialization receive the same index key even
though the two values are structurally different (different constructors),
so values of different types are identified, refuting the claim. -/
theorem claim9_counterexample :
    getRecordHash ["k"] [("k", some (CellValue.date "2020-01-01T00:00:00.000Z"))] =
      getRecordHash ["k"] [("k", some (CellValue.str "2020-01-01T00:00:00.000Z"))] ∧
    (some (CellValue.date "2020-01-01T00:00:00.000Z") : RowRecordValue) ≠
      some (CellValue.str "2020-01-01T00:00:00.000Z") := by
  decide

/-- C10: adding an empty batch of records fails before any grid write — the
encoded-values list is empty, so taking its first element is an unguarded
runtime TypeError — and the grid, the handle collection, the index and the
row counter are all left exactly as they were, in both store variants. -/
theorem claim10_emptyBatch (kh : List String) (s : TableState) (st : ObjState) :
    addRecords kh s [] = AddResult.emptyInput s ∧
    objAddRows kh st [] = ObjAddResult.emptyInput st :=
  ⟨rfl, rfl⟩

/-! Association-map lemmas. -/

theorem mapGet_mem {K V : Type} [DecidableEq K] :
    ∀ (m : List (K × V)) (k : K) (v : V), mapGet m k = some v → (k, v) ∈ m := by
  intro m
  induction m with
  | nil => intro k v h; simp [mapGet] at h
  | cons p rest ih =>
    intro k v h
    obtain ⟨k', v'⟩ := p
    by_cases hk : k' = k
    · subst hk
      simp [mapGet] at h
      subst h
      exact List.mem_cons_self _ _
    · rw [mapGet, if_neg hk] at h
      exact List.mem_cons_of_mem _ (ih k v h)

theorem mapSet_mem {K V : Type} [DecidableEq K] :
    ∀ (m : List (K × V)) (k : K) (v : V) (p : K × V),
      p ∈ mapSet m k v → p ∈ m ∨ p = (k, v) := by
  intro m
  induction m with
  | nil => intro k v p h; simp [mapSet] at h; exact Or.inr h
  | cons q rest ih =>
    intro k v p h
    obtain ⟨k', v'⟩ := q
    by_cases hk : k' = k
    · rw [mapSet, if_pos hk] at h
      rcases List.mem_cons.mp h with h1 | h1
      · exact Or.inr h1
      · exact Or.inl (List.mem_cons_of_mem _ h1)
    · rw [mapSet, if_neg hk] at h
      rcases List.mem_cons.mp h with h1 | h1
      · exact Or.inl (h1 ▸ List.mem_cons_self _ _)
      · rcases ih k v p h1 with h2 | h2
        · exact Or.inl (List.mem_cons_of_mem _ h2)
        · exact Or.inr h2

theorem mapGet_mapSet_self {K V : Type} [DecidableEq K] :
    ∀ (m : List (K × V)) (k : K) (v : V), mapGet (mapSet m k v) k = some v := by
  intro m
  induction m with
  | nil => intro k v; simp [mapGet, mapSet]
  | cons q rest ih =>
    intro k v
    obtain ⟨k', v'⟩ := q
    by_cases hk : k' = k
    · subst hk; rw [mapSet, if_pos rfl, mapGet, if_pos rfl]
    · rw [mapSet, if_neg hk, mapGet, if_neg hk]
      exact ih k v

theorem mapSet_keys_mem {K V : Type} [DecidableEq K] :
    ∀ (m : List (K × V)) (k : K) (v : V) (a : K),
      a ∈ (mapSet m k v).map Prod.fst → a ∈ m.map Prod.fst ∨ a = k := by
  intro m k v a ha
  rcases List.mem_map.mp ha with ⟨p, hp, hpa⟩
  rcases mapSet_mem m k v p hp with h1 | h1
  · exact Or.inl (hpa ▸ List.mem_map_of_mem Prod.fst h1)
  · subst h1; exact Or.inr hpa.symm

theorem mapSet_keys_nodup {K V : Type} [DecidableEq K] :
    ∀ (m : List (K × V)) (k : K) (v : V),
      (m.map Prod.fst).Nodup → ((mapSet m k v).map Prod.fst).Nodup := by
  intro m
  induction m with
  | nil => intro k v _; simp [mapSet]
  | cons q rest ih =>
    intro k v hnd
    obtain ⟨k', v'⟩ := q
    rw [List.map_cons, List.nodup_cons] at hnd
    by_cases hk : k' = k
    · subst hk
      rw [mapSet, if_pos rfl, List.map_cons, List.nodup_cons]
      exact hnd
    · rw [mapSet, if_neg hk, List.map_cons, List.nodup_cons]
      refine ⟨fun hmem => ?_, ih k v hnd.2⟩
      rcases mapSet_keys_mem rest k v k' hmem with h1 | h1
      · exact hnd.1 h1
      · exact hk h1

/-! `attachRow` characterizations. -/

theorem attachRowsOnly_not_new (s : TableState) (row : SheetRow)
    (hmem : (s.rows.all fun r => r.id != row.id) = false) :
    attachRowsOnly s row = s := by
  simp [attachRowsOnly, hmem]

theorem attachRowsOnly_new (s : TableState) (row : SheetRow)
    (hmem : (s.rows.all fun r => r.id != row.id) = true) :
    attachRowsOnly s row = { s with rows := s.rows ++ [row] } := by
  simp [attachRowsOnly, hmem]

theorem attachRowsOnly_keyMap (s : TableState) (row : SheetRow) :
    (attachRowsOnly s row).keyMap = s.keyMap := by
  unfold attachRowsOnly; split <;> rfl

theorem attachRowsOnly_grid (s : TableState) (row : SheetRow) :
    (attachRowsOnly s row).grid = s.grid := by
  unfold attachRowsOnly; split <;> rfl

theorem attachRowsOnly_headers (s : TableState) (row : SheetRow) :
    (attachRowsOnly s row).headers = s.headers := by
  unfold attachRowsOnly; split <;> rfl

theorem attachRowsOnly_lastRow (s : TableState) (row : SheetRow) :
    (attachRowsOnly s row).lastRow = s.lastRow := by
  unfold attachRowsOnly; split <;> rfl

theorem attachRowsOnly_rangeLastRow (s : TableState) (row : SheetRow) :
    (attachRowsOnly s row).rangeLastRow = s.rangeLastRow := by
  unfold attachRowsOnly; split <;> rfl

theorem attachRowsOnly_nextId (s : TableState) (row : SheetRow) :
    (attachRowsOnly s row).nextId = s.nextId := by
  unfold attachRowsOnly; split <;> rfl

theorem attachRowsOnly_rows_cases (s : TableState) (row : SheetRow) :
    (attachRowsOnly s row).rows = s.rows ∨ (attachRowsOnly s row).rows = s.rows ++ [row] := by
  unfold attachRowsOnly; split
  · exact Or.inr rfl
  · exact Or.inl rfl

theorem attachRow_existing (kh : List String) (s : TableState) (row : SheetRow)
    (hmem : (s.rows.all fun r => r.id != row.id) = false)
    (hkh : kh ≠ [])
    (hnn : (kh.all fun h => (recordGet row.record h).isNone) = false) :
    attachRow kh s row =
      .ok { s with keyMap := mapSet s.keyMap (getRecordHash kh row.record) row.id } := by
  have ha := attachRowsOnly_not_new s row hmem
  unfold attachRow
  rw [if_neg hkh, ha]
  simp only [hnn, Bool.false_eq_true, if_false]
  cases hm : mapGet s.keyMap (getRecordHash kh row.record) with
  | none => rfl
  | some existId => simp [hmem]

theorem attachRow_allNull (kh : List String) (s : TableState) (row : SheetRow)
    (hkh : kh ≠ [])
    (hnn : (kh.all fun h => (recordGet row.record h).isNone) = true) :
    attachRow kh s row = .ok (attachRowsOnly s row) := by
  unfold attachRow
  rw [if_neg hkh]
  simp only [hnn, if_true]

theorem attachRow_new_dup (kh : List String) (s : TableState) (row : SheetRow) (existId : Nat)
    (hmem : (s.rows.all fun r => r.id != row.id) = true)
    (hkh : kh ≠ [])
    (hnn : (kh.all fun h => (recordGet row.record h).isNone) = false)
    (hm : mapGet s.keyMap (getRecordHash kh row.record) = some existId) :
    attachRow kh s row =
      .dupKey { s with rows := s.rows ++ [row] }
        (lineOfId { s with rows := s.rows ++ [row] } existId) row.line := by
  have ha := attachRowsOnly_new s row hmem
  unfold attachRow
  rw [if_neg hkh]
  simp only [hnn, Bool.false_eq_true, if_false, hm, hmem, if_true, ha]

theorem attachRow_ok_keyMap (kh : List String) (s : TableState) (row : SheetRow)
    (s2 : TableState) (h : attachRow kh s row = .ok s2) :
    s2.keyMap = s.keyMap ∨
      (s2.keyMap = mapSet s.keyMap (getRecordHash kh row.record) row.id ∧
        (kh.all fun hd => (recordGet row.record hd).isNone) = false ∧ kh ≠ []) := by
  unfold attachRow at h
  split at h
  · injection h with h2; subst h2; exact Or.inl (attachRowsOnly_keyMap s row)
  · next hkh =>
    split at h
    · injection h with h2; subst h2; exact Or.inl (attachRowsOnly_keyMap s row)
    · next hnn =>
      split at h
      · split at h
        · exact absurd h (by simp)
        · injection h with h2; subst h2
          exact Or.inr ⟨rfl, Bool.eq_false_iff.mpr hnn, hkh⟩
      · injection h with h2; subst h2
        exact Or.inr ⟨rfl, Bool.eq_false_iff.mpr hnn, hkh⟩

theorem attachRow_ok_frame (kh : List String) (s : TableState) (row : SheetRow)
    (s2 : TableState) (h : attachRow kh s row = .ok s2) :
    s2.grid = s.grid ∧ s2.headers = s.headers ∧ s2.lastRow = s.lastRow ∧
    s2.rangeLastRow = s.rangeLastRow ∧ s2.nextId = s.nextId ∧
    (s2.rows = s.rows ∨ s2.rows = s.rows ++ [row]) := by
  unfold attachRow at h
  split at h
  · injection h with h2; subst h2
    exact ⟨attachRowsOnly_grid s row, attachRowsOnly_headers s row,
      attachRowsOnly_lastRow s row, attachRowsOnly_rangeLastRow s row,
      attachRowsOnly_nextId s row, attachRowsOnly_rows_cases s row⟩
  · split at h
    · injection h with h2; subst h2
      exact ⟨attachRowsOnly_grid s row, attachRowsOnly_headers s row,
        attachRowsOnly_lastRow s row, attachRowsOnly_rangeLastRow s row,
        attachRowsOnly_nextId s row, attachRowsOnly_rows_cases s row⟩
    · split at h
      · split at h
        · exact absurd h (by simp)
        · injection h with h2; subst h2
          exact ⟨attachRowsOnly_grid s row, attachRowsOnly_headers s row,
            attachRowsOnly_lastRow s row, attachRowsOnly_rangeLastRow s row,
            attachRowsOnly_nextId s row, attachRowsOnly_rows_cases s row⟩
      · injection h with h2; subst h2
        exact ⟨attachRowsOnly_grid s row, attachRowsOnly_headers s row,
          attachRowsOnly_lastRow s row, attachRowsOnly_rangeLastRow s row,
          attachRowsOnly_nextId s row, attachRowsOnly_rows_cases s row⟩

theorem attachRow_dup_shape (kh : List String) (s : TableState) (row : SheetRow)
    (s2 : TableState) (el nl : Nat) (h : attachRow kh s row = .dupKey s2 el nl) :
    s2 = { s with rows := s.rows ++ [row] } ∧ nl = row.line ∧
    s2.keyMap = s.keyMap ∧ (s.rows.all fun r => r.id != row.id) = true ∧
    ∃ existId, mapGet s.keyMap (getRecordHash kh row.record) = some existId ∧
      el = lineOfId s2 existId := by
  unfold attachRow at h
  split at h
  · exact absurd h (by simp)
  · split at h
    · exact absurd h (by simp)
    · split at h
      · next existId hm =>
        split at h
        · next hmem =>
          have ha := attachRowsOnly_new s row hmem
          rw [ha] at h
          injection h with h1 h2 h3
          subst h1
          exact ⟨rfl, h3.symm, rfl, hmem, existId, hm, h2.symm⟩
        · exact absurd h (by simp)
      · exact absurd h (by simp)

/-! Index invariants and batch-construction lemmas. -/

/-- No key stored in the index is the all-null array: the invariant
`attachRow`'s all-null exclusion maintains. -/
def NoAllNullKeys (m : List (List Json × Nat)) : Prop :=
  ∀ p ∈ m, ∃ j ∈ p.1, j ≠ Json.null

theorem toJson_some_ne_null (c : CellValue) : toJson (some c) ≠ Json.null := by
  cases c <;> simp [toJson]

theorem hash_has_nonnull (kh : List String) (r : RowRecord)
    (hnn : (kh.all fun h => (recordGet r h).isNone) = false) :
    ∃ j ∈ getRecordHash kh r, j ≠ Json.null := by
  have hex : ∃ h ∈ kh, ¬((recordGet r h).isNone = true) := by
    by_contra hc
    push_neg at hc
    have hall : (kh.all fun h => (recordGet r h).isNone) = true := List.all_eq_true.mpr hc
    rw [hall] at hnn
    simp at hnn
  obtain ⟨h, hh, hni⟩ := hex
  have hsome : ∃ c, recordGet r h = some c := by
    cases hrc : recordGet r h with
    | none => rw [hrc] at hni; simp at hni
    | some c => exact ⟨c, rfl⟩
  obtain ⟨c, hc⟩ := hsome
  refine ⟨toJson (recordGet r h), List.mem_map_of_mem _ hh, ?_⟩
  rw [hc]
  exact toJson_some_ne_null c

theorem attachRow_preserves_noAllNull (kh : List String) (s : TableState) (row : SheetRow)
    (s2 : TableState) (hns : NoAllNullKeys s.keyMap)
    (h : attachRow kh s row = .ok s2) : NoAllNullKeys s2.keyMap := by
  rcases attachRow_ok_keyMap kh s row s2 h with hk | ⟨hk, hnn, _⟩
  · rw [hk]; exact hns
  · rw [hk]
    intro p hp
    rcases mapSet_mem _ _ _ p hp with h1 | h1
    · exact hns p h1
    · subst h1
      exact hash_has_nonnull kh row.record hnn

/-- All handle identities in a state are below the allocator, so freshly
minted handles are genuinely new to the row set and the key index. -/
def FreshIds (s : TableState) : Prop :=
  (∀ r ∈ s.rows, r.id < s.nextId) ∧ (∀ p ∈ s.keyMap, p.2 < s.nextId)

theorem attachRow_ok_fresh (kh : List String) (s : TableState) (row : SheetRow)
    (s2 : TableState) (hrow : row.id < s.nextId) (hf : FreshIds s)
    (h : attachRow kh s row = .ok s2) : FreshIds s2 := by
  obtain ⟨_, _, _, _, hn, hr⟩ := attachRow_ok_frame kh s row s2 h
  constructor
  · intro r hrm
    rw [hn]
    rcases hr with h1 | h1
    · exact hf.1 r (h1 ▸ hrm)
    · rw [h1] at hrm
      rcases List.mem_append.mp hrm with h2 | h2
      · exact hf.1 r h2
      · rw [List.mem_singleton.mp h2]; exact hrow
  · intro p hp
    rw [hn]
    rcases attachRow_ok_keyMap kh s row s2 h with hk | ⟨hk, _, _⟩
    · exact hf.2 p (hk ▸ hp)
    · rw [hk] at hp
      rcases mapSet_mem _ _ _ p hp with h1 | h1
      · exact hf.2 p h1
      · rw [h1]; exact hrow

theorem createRowsGo_nil (kh : List String) (L : Nat) (s : TableState) (index : Nat)
    (acc : List SheetRow) : createRowsGo kh L s [] index acc = .ok s acc := rfl

theorem createRowsGo_cons_ok (kh : List String) (L : Nat) (s s3 : TableState)
    (rec : RowRecord) (rest : List RowRecord) (index : Nat) (acc : List SheetRow)
    (ha : attachRow kh { s with nextId := s.nextId + 1 } ⟨s.nextId, rec, L + index + 1⟩ = .ok s3) :
    createRowsGo kh L s (rec :: rest) index acc =
      createRowsGo kh L s3 rest (index + 1) (acc ++ [⟨s.nextId, rec, L + index + 1⟩]) := by
  rw [createRowsGo, ha]

theorem createRowsGo_cons_dup (kh : List String) (L : Nat) (s s3 : TableState)
    (rec : RowRecord) (rest : List RowRecord) (index : Nat) (acc : List SheetRow)
    (el nl : Nat)
    (ha : attachRow kh { s with nextId := s.nextId + 1 } ⟨s.nextId, rec, L + index + 1⟩ = .dupKey s3 el nl) :
    createRowsGo kh L s (rec :: rest) index acc = .dupKey s3 el nl := by
  rw [createRowsGo, ha]

theorem range_map_succ_shift (L index n : Nat) :
    (List.range (n + 1)).map (fun i => L + index + i + 1) =
      (L + index + 1) :: (List.range n).map (fun i => L + (index + 1) + i + 1) := by
  rw [List.range_succ_eq_map, List.map_cons, List.map_map]
  congr 1
  apply List.map_congr_left
  intro a _
  simp [Function.comp]
  omega

theorem createRowsGo_ok_inv (kh : List String) (L : Nat) :
    ∀ (records : List RowRecord) (s : TableState) (index : Nat) (acc : List SheetRow)
      (s2 : TableState) (out : List SheetRow),
      createRowsGo kh L s records index acc = .ok s2 out →
      s2.grid = s.grid ∧ s2.headers = s.headers ∧ s2.lastRow = s.lastRow ∧
      s2.rangeLastRow = s.rangeLastRow ∧
      out.map (fun r => r.record) = acc.map (fun r => r.record) ++ records ∧
      out.map (fun r => r.line) =
        acc.map (fun r => r.line) ++ (List.range records.length).map (fun i => L + index + i + 1) ∧
      out.length = acc.length + records.length := by
  intro records
  induction records with
  | nil =>
    intro s index acc s2 out h
    rw [createRowsGo_nil] at h
    injection h with h1 h2
    subst h1; subst h2
    simp
  | cons rec rest ih =>
    intro s index acc s2 out h
    cases ha : attachRow kh { s with nextId := s.nextId + 1 } ⟨s.nextId, rec, L + index + 1⟩ with
    | ok s3 =>
      rw [createRowsGo_cons_ok kh L s s3 rec rest index acc ha] at h
      obtain ⟨hg, hh, hl, hrl, hrec, hline, hlen⟩ :=
        ih s3 (index + 1) (acc ++ [⟨s.nextId, rec, L + index + 1⟩]) s2 out h
      obtain ⟨fg, fh, fl, frl, _, _⟩ :=
        attachRow_ok_frame kh { s with nextId := s.nextId + 1 } ⟨s.nextId, rec, L + index + 1⟩ s3 ha
      refine ⟨by rw [hg, fg], by rw [hh, fh], by rw [hl, fl], by rw [hrl, frl], ?_, ?_, ?_⟩
      · rw [hrec]
        simp
      · rw [hline, List.length_cons, range_map_succ_shift L index rest.length]
        simp
      · rw [hlen]
        simp
        omega
    | dupKey s3 el nl =>
      rw [createRowsGo_cons_dup kh L s s3 rec rest index acc el nl ha] at h
      exact absurd h (by simp)

theorem createRowsGo_dup_inv (kh : List String) (L : Nat) :
    ∀ (records : List RowRecord) (s : TableState) (index : Nat) (acc : List SheetRow)
      (s2 : TableState) (el nl : Nat), FreshIds s →
      createRowsGo kh L s records index acc = .dupKey s2 el nl →
      s2.grid = s.grid ∧ s2.headers = s.headers ∧ s2.lastRow = s.lastRow ∧
      s2.rangeLastRow = s.rangeLastRow ∧
      ∃ row, row ∈ s2.rows ∧ row.line = nl ∧ s.nextId ≤ row.id ∧
        mapGet s2.keyMap (getRecordHash kh row.record) ≠ some row.id := by
  intro records
  induction records with
  | nil =>
    intro s index acc s2 el nl _ h
    rw [createRowsGo_nil] at h
    exact absurd h (by simp)
  | cons rec rest ih =>
    intro s index acc s2 el nl hf h
    cases ha : attachRow kh { s with nextId := s.nextId + 1 } ⟨s.nextId, rec, L + index + 1⟩ with
    | ok s3 =>
      rw [createRowsGo_cons_ok kh L s s3 rec rest index acc ha] at h
      have hf3 : FreshIds s3 := by
        refine attachRow_ok_fresh kh { s with nextId := s.nextId + 1 }
          ⟨s.nextId, rec, L + index + 1⟩ s3 (by simp) ?_ ha
        exact ⟨fun r hr => Nat.lt_succ_of_lt (hf.1 r hr),
          fun p hp => Nat.lt_succ_of_lt (hf.2 p hp)⟩
      obtain ⟨hg, hh, hl, hrl, row, hrmem, hrline, hrid, hrmap⟩ :=
        ih s3 (index + 1) (acc ++ [⟨s.nextId, rec, L + index + 1⟩]) s2 el nl hf3 h
      obtain ⟨fg, fh, fl, frl, fn, _⟩ :=
        attachRow_ok_frame kh { s with nextId := s.nextId + 1 } ⟨s.nextId, rec, L + index + 1⟩ s3 ha
      refine ⟨by rw [hg, fg], by rw [hh, fh], by rw [hl, fl], by rw [hrl, frl],
        row, hrmem, hrline, ?_, hrmap⟩
      have : s3.nextId = s.nextId + 1 := by rw [fn]
      omega
    | dupKey s3 el' nl' =>
      rw [createRowsGo_cons_dup kh L s s3 rec rest index acc el' nl' ha] at h
      injection h with h1 h2 h3
      subst h1; subst h2; subst h3
      obtain ⟨hs3, hnl, hkm, _, existId, hm, _⟩ :=
        attachRow_dup_shape kh { s with nextId := s.nextId + 1 }
          ⟨s.nextId, rec, L + index + 1⟩ s3 el' nl' ha
      have hid : existId < s.nextId := hf.2 _ (mapGet_mem _ _ _ hm)
      refine ⟨by rw [hs3], by rw [hs3], by rw [hs3], by rw [hs3],
        ⟨s.nextId, rec, L + index + 1⟩, ?_, hnl.symm, Nat.le_refl _, ?_⟩
      · rw [hs3]; simp
      · rw [hkm]
        simp only [hm]
        intro hcon
        injection hcon with hcon2
        omega

theorem setValuesAt_append (grid : List (List CellValue)) (vs : List (List CellValue)) :
    setValuesAt grid grid.length vs = grid ++ vs := by
  unfold setValuesAt
  rw [List.take_length, Nat.sub_self, List.replicate_zero, List.append_nil,
    List.drop_eq_nil_of_le (by omega), List.append_nil]

/-- C1 counterexample: handle 1 (line 3) is already in the row set and is
re-absorbed after its key field was changed to handle 0's key value.  The
claim demands a duplicate-key error whenever the absorbed handle's key
already maps to a different handle; instead `attachRow` succeeds and
silently rebinds the key `[1]` from handle 0 to handle 1 (and handle 1's
stale old key `[2]` also still maps to it). -/
theorem claim1_counterexample :
    attachRow ["k"]
      { grid := [[.str "k"], [.num 1], [.num 2]], headers := ["k"],
        rows := [⟨0, [("k", some (.num 1))], 2⟩, ⟨1, [("k", some (.num 1))], 3⟩],
        keyMap := [([.num 1], 0), ([.num 2], 1)],
        lastRow := 3, rangeLastRow := 3, nextId := 2 }
      ⟨1, [("k", some (.num 1))], 3⟩ =
    AttachResult.ok
      { grid := [[.str "k"], [.num 1], [.num 2]], headers := ["k"],
        rows := [⟨0, [("k", some (.num 1))], 2⟩, ⟨1, [("k", some (.num 1))], 3⟩],
        keyMap := [([.num 1], 1), ([.num 2], 1)],
        lastRow := 3, rangeLastRow := 3, nextId := 2 } := by
  decide

/-- C2 counterexample: `addRecords` of one record whose key collides with
the already-indexed row fails with the duplicate-key error (lines 2 and 3),
but the failing handle (identity 1, line 3) IS present in the in-memory
row-handle set of the resulting state — the claim says that set is left
without the failing entries. -/
theorem claim2_counterexample :
    addRecords ["k"]
      { grid := [[.str "k"], [.num 1]], headers := ["k"],
        rows := [⟨0, [("k", some (.num 1))], 2⟩], keyMap := [([.num 1], 0)],
        lastRow := 2, rangeLastRow := 2, nextId := 1 }
      [[("k", some (.num 1))]] =
    AddResult.dupKey
      { grid := [[.str "k"], [.num 1], [.num 1]], headers := ["k"],
        rows := [⟨0, [("k", some (.num 1))], 2⟩, ⟨1, [("k", some (.num 1))], 3⟩],
        keyMap := [([.num 1], 0)],
        lastRow := 3, rangeLastRow := 3, nextId := 2 } 2 3 ∧
    (⟨1, [("k", some (.num 1))], 3⟩ : SheetRow) ∈
      [(⟨0, [("k", some (.num 1))], 2⟩ : SheetRow), ⟨1, [("k", some (.num 1))], 3⟩] := by
  decide

/-- C3 counterexample: `setValue` changes handle 1's key field to the key
value held by handle 0 — a key collision at update time.  The claim says
the collision is detected at that moment; instead the call succeeds, the
key `[1]` is silently rebound to handle 1, and handle 1's previous key
`[2]` still maps to it. -/
theorem claim3_counterexample :
    setValue ["k"]
      { grid := [[.str "k"], [.num 1], [.num 2]], headers := ["k"],
        rows := [⟨0, [("k", some (.num 1))], 2⟩, ⟨1, [("k", some (.num 2))], 3⟩],
        keyMap := [([.num 1], 0), ([.num 2], 1)],
        lastRow := 3, rangeLastRow := 3, nextId := 2 }
      ⟨1, [("k", some (.num 2))], 3⟩ "k" (some (.num 1)) =
    SetValueResult.ok
      { grid := [[.str "k"], [.num 1], [.num 1]], headers := ["k"],
        rows := [⟨0, [("k", some (.num 1))], 2⟩, ⟨1, [("k", some (.num 1))], 3⟩],
        keyMap := [([.num 1], 1), ([.num 2], 1)],
        lastRow := 3, rangeLastRow := 3, nextId := 2 } := by
  decide

/-- C5 counterexample: in the `SheetObject` variant a row whose only key
field is null IS absorbed into the key index (under the all-null key), and
a lookup of the all-null key returns that handle — the claim says such a
handle is never indexed and the lookup returns no handle. -/
theorem claim5_counterexample :
    objConstruct ["k"] [[.str "k"], [.str ""]] =
      Except.ok
        { grid := [[.str "k"], [.str ""]], header := [.str "k"],
          rows := [⟨[("k", none)], 1, 2⟩],
          rowsByKeysMap := [([Json.null], ⟨[("k", none)], 1, 2⟩)],
          lastRow := 2 } ∧
    objGetRowByKey ["k"]
      { grid := [[.str "k"], [.str ""]], header := [.str "k"],
        rows := [⟨[("k", none)], 1, 2⟩],
        rowsByKeysMap := [([Json.null], ⟨[("k", none)], 1, 2⟩)],
        lastRow := 2 }
      [none] = ObjKeyLookupResult.result (some ⟨[("k", none)], 1, 2⟩) :=
  ⟨rfl, rfl⟩

/-- C7 counterexample: a grid holding only the header row `["id","id"]` — a
duplicate header — nevertheless constructs a `SheetObject` store without
any error (header validation is skipped by the one-row early return), while
the claim says every construction over such a header row fails with the
corresponding schema error. -/
theorem claim7_counterexample :
    getSheetRowsAsObjects [[.str "id", .str "id"]] = Except.ok [] ∧
    objConstruct [] [[.str "id", .str "id"]] =
      Except.ok
        { grid := [[.str "id", .str "id"]], header := [.str "id", .str "id"],
          rows := [], rowsByKeysMap := [], lastRow := 1 } :=
  ⟨rfl, rfl⟩

/-- C8 counterexample: a `SheetObject` store is constructed with the key
header `"missing"` which does not occur in the discovered header `["id"]`,
and construction succeeds (the row is simply indexed under the all-null
key) instead of failing with an error naming the missing header, as the
claim requires of construction-time validation. -/
theorem claim8_counterexample :
    objConstruct ["missing"] [[.str "id"], [.str "x"]] =
      Except.ok
        { grid := [[.str "id"], [.str "x"]], header := [.str "id"],
          rows := [⟨[("id", some (.str "x"))], 1, 2⟩],
          rowsByKeysMap := [([Json.null], ⟨[("id", some (.str "x"))], 1, 2⟩)],
          lastRow := 2 } :=
  rfl

/-! Amended claim theorems. -/

theorem updateRowEntry_all_ne (rows : List SheetRow) (row' : SheetRow) (x : Nat) :
    ((updateRowEntry rows row').all fun r => r.id != x) = (rows.all fun r => r.id != x) := by
  induction rows with
  | nil => rfl
  | cons r rest ih =>
    show (((if r.id = row'.id then row' else r) :: updateRowEntry rest row').all
        fun r => r.id != x) = _
    rw [List.all_cons, List.all_cons, ih]
    congr 1
    by_cases hr : r.id = row'.id
    · rw [if_pos hr, hr]
    · rw [if_neg hr]

/-- C1 (amended): absorbing a handle that is new to the row set and whose
non-all-null key already maps to some handle fails with the duplicate-key
error naming the existing handle's line and the new handle's line, leaving
the index unchanged; but re-absorbing an already-attached handle (as after
a field update) never fails — the mapping for its current key is written
unconditionally, silently overwriting an existing mapping even when it
belongs to a different handle.  At most one handle stays indexed per
distinct key: successful absorption preserves distinctness of the indexed
keys. -/
theorem claim1_amended (kh : List String) (s : TableState) (row : SheetRow) (existId : Nat)
    (hkh : kh ≠ [])
    (hnn : (kh.all fun h => (recordGet row.record h).isNone) = false) :
    ((s.rows.all fun r => r.id != row.id) = true →
      mapGet s.keyMap (getRecordHash kh row.record) = some existId →
      attachRow kh s row =
        .dupKey { s with rows := s.rows ++ [row] }
          (lineOfId { s with rows := s.rows ++ [row] } existId) row.line) ∧
    ((s.rows.all fun r => r.id != row.id) = false →
      attachRow kh s row =
        .ok { s with keyMap := mapSet s.keyMap (getRecordHash kh row.record) row.id }) ∧
    (∀ s2, (s.keyMap.map Prod.fst).Nodup → attachRow kh s row = .ok s2 →
      (s2.keyMap.map Prod.fst).Nodup) := by
  refine ⟨fun hmem hm => attachRow_new_dup kh s row existId hmem hkh hnn hm,
    fun hmem => attachRow_existing kh s row hmem hkh hnn,
    fun s2 hnd h => ?_⟩
  rcases attachRow_ok_keyMap kh s row s2 h with hk | ⟨hk, _, _⟩
  · rw [hk]; exact hnd
  · rw [hk]; exact mapSet_keys_nodup _ _ _ hnd

/-- C1 witness: on a concrete store — a fresh handle colliding with the
indexed key fails naming lines 2 and 4, and a re-absorbed colliding handle
succeeds and takes the key over. -/
theorem claim1_witness :
    attachRow ["k"]
      { grid := [[.str "k"], [.num 1]], headers := ["k"],
        rows := [⟨0, [("k", some (.num 1))], 2⟩], keyMap := [([.num 1], 0)],
        lastRow := 2, rangeLastRow := 2, nextId := 1 }
      ⟨1, [("k", some (.num 1))], 4⟩ =
      .dupKey
        { grid := [[.str "k"], [.num 1]], headers := ["k"],
          rows := [⟨0, [("k", some (.num 1))], 2⟩] ++ [⟨1, [("k", some (.num 1))], 4⟩],
          keyMap := [([.num 1], 0)], lastRow := 2, rangeLastRow := 2, nextId := 1 }
        (lineOfId
          { grid := [[.str "k"], [.num 1]], headers := ["k"],
            rows := [⟨0, [("k", some (.num 1))], 2⟩] ++ [⟨1, [("k", some (.num 1))], 4⟩],
            keyMap := [([.num 1], 0)], lastRow := 2, rangeLastRow := 2, nextId := 1 } 0) 4 ∧
    attachRow ["k"]
      { grid := [[.str "k"], [.num 1], [.num 2]], headers := ["k"],
        rows := [⟨0, [("k", some (.num 1))], 2⟩, ⟨1, [("k", some (.num 1))], 3⟩],
        keyMap := [([.num 1], 0), ([.num 2], 1)],
        lastRow := 3, rangeLastRow := 3, nextId := 2 }
      ⟨1, [("k", some (.num 1))], 3⟩ =
      .ok
        { grid := [[.str "k"], [.num 1], [.num 2]], headers := ["k"],
          rows := [⟨0, [("k", some (.num 1))], 2⟩, ⟨1, [("k", some (.num 1))], 3⟩],
          keyMap := mapSet [([.num 1], 0), ([.num 2], 1)]
            (getRecordHash ["k"] [("k", some (.num 1))]) 1,
          lastRow := 3, rangeLastRow := 3, nextId := 2 } :=
  ⟨(claim1_amended ["k"]
      { grid := [[.str "k"], [.num 1]], headers := ["k"],
        rows := [⟨0, [("k", some (.num 1))], 2⟩], keyMap := [([.num 1], 0)],
        lastRow := 2, rangeLastRow := 2, nextId := 1 }
      ⟨1, [("k", some (.num 1))], 4⟩ 0 (by decide) (by decide)).1 (by decide) (by decide),
   (claim1_amended ["k"]
      { grid := [[.str "k"], [.num 1], [.num 2]], headers := ["k"],
        rows := [⟨0, [("k", some (.num 1))], 2⟩, ⟨1, [("k", some (.num 1))], 3⟩],
        keyMap := [([.num 1], 0), ([.num 2], 1)],
        lastRow := 3, rangeLastRow := 3, nextId := 2 }
      ⟨1, [("k", some (.num 1))], 3⟩ 0 (by decide) (by decide)).2.1 (by decide)⟩

/-- C3 (amended): for a handle already in the row set, `setValue` writes the
encoded value (null as empty text) through to the backing cell, replaces
the in-memory record, and re-runs absorption, which rebinds the updated
key to the handle — but it never fails: a collision with a different
handle's key is NOT detected at update time (the mapping is silently taken
over), and the handle's previous key mapping is not removed. -/
theorem claim3_amended (kh : List String) (s : TableState) (row : SheetRow)
    (h : String) (v : RowRecordValue) (col : Nat)
    (hcol : headerColumnOf s.headers h = some col)
    (hmem : (s.rows.all fun r => r.id != row.id) = false)
    (hkh : kh ≠ [])
    (hnn : (kh.all fun hd => (recordGet (mapSet row.record h v) hd).isNone) = false) :
    setValue kh s row h v =
      .ok { s with
              grid := writeCell s.grid row.line col (encodeCell v),
              rows := updateRowEntry s.rows { row with record := mapSet row.record h v },
              keyMap := mapSet s.keyMap
                (getRecordHash kh (mapSet row.record h v)) row.id } := by
  have hmem2 : ((updateRowEntry s.rows { row with record := mapSet row.record h v }).all
      fun r => r.id != row.id) = false := by
    rw [updateRowEntry_all_ne]; exact hmem
  unfold setValue
  rw [hcol]
  dsimp only
  rw [attachRow_existing kh
      { s with
          grid := writeCell s.grid row.line col (encodeCell v),
          rows := updateRowEntry s.rows { row with record := mapSet row.record h v } }
      { row with record := mapSet row.record h v } hmem2 hkh hnn]

/-- C3 witness: a concrete update of the key field of the handle on line 3
from `2` to `3` writes through, replaces the record and refreshes the
index, as the amended claim states. -/
theorem claim3_witness :
    setValue ["k"]
      { grid := [[.str "k"], [.num 1], [.num 2]], headers := ["k"],
        rows := [⟨0, [("k", some (.num 1))], 2⟩, ⟨1, [("k", some (.num 2))], 3⟩],
        keyMap := [([.num 1], 0), ([.num 2], 1)],
        lastRow := 3, rangeLastRow := 3, nextId := 2 }
      ⟨1, [("k", some (.num 2))], 3⟩ "k" (some (.num 3)) =
      .ok { grid := writeCell [[.str "k"], [.num 1], [.num 2]] 3 1 (encodeCell (some (.num 3))),
            headers := ["k"],
            rows := updateRowEntry
              [⟨0, [("k", some (.num 1))], 2⟩, ⟨1, [("k", some (.num 2))], 3⟩]
              ⟨1, mapSet [("k", some (.num 2))] "k" (some (.num 3)), 3⟩,
            keyMap := mapSet [([.num 1], 0), ([.num 2], 1)]
              (getRecordHash ["k"] (mapSet [("k", some (.num 2))] "k" (some (.num 3)))) 1,
            lastRow := 3, rangeLastRow := 3, nextId := 2 } :=
  claim3_amended ["k"]
    { grid := [[.str "k"], [.num 1], [.num 2]], headers := ["k"],
      rows := [⟨0, [("k", some (.num 1))], 2⟩, ⟨1, [("k", some (.num 2))], 3⟩],
      keyMap := [([.num 1], 0), ([.num 2], 1)],
      lastRow := 3, rangeLastRow := 3, nextId := 2 }
    ⟨1, [("k", some (.num 2))], 3⟩ "k" (some (.num 3)) 1
    (by decide) (by decide) (by decide) (by decide)

/-- C5 (amended): in the `SheetTable` variant, a handle whose configured key
fields are all null is never indexed — absorption only records it in the
row set and leaves the key index untouched — the index never holds an
all-null key across absorptions, and looking the all-null key up returns
no handle; the `SheetObject` variant, however, indexes such handles under
the all-null key. -/
theorem claim5_amended :
    (∀ (kh : List String) (s : TableState) (row : SheetRow),
      kh ≠ [] → (kh.all fun h => (recordGet row.record h).isNone) = true →
      attachRow kh s row = .ok (attachRowsOnly s row) ∧
        (attachRowsOnly s row).keyMap = s.keyMap) ∧
    (∀ (kh : List String) (s : TableState) (row : SheetRow) (s2 : TableState),
      NoAllNullKeys s.keyMap → attachRow kh s row = .ok s2 → NoAllNullKeys s2.keyMap) ∧
    (∀ (kh : List String) (s : TableState),
      kh ≠ [] → NoAllNullKeys s.keyMap →
      getRowByKey kh s (List.replicate kh.length none) = .result none) := by
  refine ⟨fun kh s row hkh hnn =>
      ⟨attachRow_allNull kh s row hkh hnn, attachRowsOnly_keyMap s row⟩,
    fun kh s row s2 hns hok => attachRow_preserves_noAllNull kh s row s2 hns hok,
    fun kh s hkh hns => ?_⟩
  unfold getRowByKey
  rw [if_neg hkh, if_neg (by simp)]
  have hm : (List.replicate kh.length (none : RowRecordValue)).map toJson =
      List.replicate kh.length Json.null := by
    rw [List.map_replicate]; rfl
  rw [hm]
  cases hg : mapGet s.keyMap (List.replicate kh.length Json.null) with
  | none => rfl
  | some rid =>
    exfalso
    obtain ⟨j, hj, hjn⟩ := hns _ (mapGet_mem _ _ _ hg)
    exact hjn (List.eq_of_mem_replicate hj)

/-- C5 witness: on a concrete indexed store, absorbing an all-null-key
handle leaves the index unchanged and the all-null key looks up to
nothing. -/
theorem claim5_witness :
    attachRow ["k"]
      { grid := [[.str "k"], [.num 1]], headers := ["k"],
        rows := [⟨0, [("k", some (.num 1))], 2⟩], keyMap := [([.num 1], 0)],
        lastRow := 2, rangeLastRow := 2, nextId := 1 }
      ⟨1, [("k", none)], 3⟩ =
      .ok (attachRowsOnly
        { grid := [[.str "k"], [.num 1]], headers := ["k"],
          rows := [⟨0, [("k", some (.num 1))], 2⟩], keyMap := [([.num 1], 0)],
          lastRow := 2, rangeLastRow := 2, nextId := 1 }
        ⟨1, [("k", none)], 3⟩) ∧
    getRowByKey ["k"]
      { grid := [[.str "k"], [.num 1]], headers := ["k"],
        rows := [⟨0, [("k", some (.num 1))], 2⟩], keyMap := [([.num 1], 0)],
        lastRow := 2, rangeLastRow := 2, nextId := 1 }
      (List.replicate (["k"].length) none) = .result none :=
  ⟨(claim5_amended.1 ["k"]
      { grid := [[.str "k"], [.num 1]], headers := ["k"],
        rows := [⟨0, [("k", some (.num 1))], 2⟩], keyMap := [([.num 1], 0)],
        lastRow := 2, rangeLastRow := 2, nextId := 1 }
      ⟨1, [("k", none)], 3⟩ (by decide) (by decide)).1,
   claim5_amended.2.2 ["k"]
      { grid := [[.str "k"], [.num 1]], headers := ["k"],
        rows := [⟨0, [("k", some (.num 1))], 2⟩], keyMap := [([.num 1], 0)],
        lastRow := 2, rangeLastRow := 2, nextId := 1 }
      (by decide) (by unfold NoAllNullKeys; decide)⟩

theorem addRecords_cons_eq (kh : List String) (s : TableState) (r0 : RowRecord)
    (rrest : List RowRecord) :
    addRecords kh s (r0 :: rrest) =
      match createRowsGo kh s.rangeLastRow
          { s with
              grid := setValuesAt s.grid s.lastRow
                ((r0 :: rrest).map (fun r => getValues s.headers r)),
              lastRow := (setValuesAt s.grid s.lastRow
                ((r0 :: rrest).map (fun r => getValues s.headers r))).length,
              rangeLastRow := (setValuesAt s.grid s.lastRow
                ((r0 :: rrest).map (fun r => getValues s.headers r))).length }
          (r0 :: rrest) 0 [] with
      | .ok s2 out => .ok s2 out
      | .dupKey s2 el nl => .dupKey s2 el nl := rfl

/-- C2 (amended): when `addRecords` fails with a duplicate-key error, the
whole encoded batch is already durably in the grid, appended as a
contiguous block at the old end (write-before-validate), and the
end-of-table counter was advanced past it; the in-memory key index is left
without the failing entry — the failing handle's key does not map to it —
but the failing handle itself HAS been added to the in-memory row-handle
set (it is a handle not present before the call whose line is the one the
error names), contrary to the claim. -/
theorem claim2_amended (kh : List String) (s : TableState) (records : List RowRecord)
    (s2 : TableState) (el nl : Nat)
    (hlr : s.lastRow = s.grid.length)
    (hf : FreshIds s)
    (h : addRecords kh s records = .dupKey s2 el nl) :
    s2.grid = s.grid ++ records.map (fun r => getValues s.headers r) ∧
    s2.lastRow = s.grid.length + records.length ∧
    ∃ row, row ∈ s2.rows ∧ row.line = nl ∧
      mapGet s2.keyMap (getRecordHash kh row.record) ≠ some row.id ∧
      ∀ r ∈ s.rows, r.id ≠ row.id := by
  cases records with
  | nil => simp [addRecords] at h
  | cons r0 rrest =>
    rw [addRecords_cons_eq] at h
    split at h
    · exact absurd h (by simp)
    · next s3 el2 nl2 hc =>
      injection h with h1 h2 h3
      rw [h1, h2, h3] at hc
      have hfS1 : FreshIds { s with
          grid := setValuesAt s.grid s.lastRow
            ((r0 :: rrest).map (fun r => getValues s.headers r)),
          lastRow := (setValuesAt s.grid s.lastRow
            ((r0 :: rrest).map (fun r => getValues s.headers r))).length,
          rangeLastRow := (setValuesAt s.grid s.lastRow
            ((r0 :: rrest).map (fun r => getValues s.headers r))).length } := hf
      obtain ⟨hg, _, hl, _, row, hrm, hrline, hrid, hrmap⟩ :=
        createRowsGo_dup_inv kh s.rangeLastRow (r0 :: rrest) _ 0 [] s2 el nl hfS1 hc
      have hgrid : s2.grid = setValuesAt s.grid s.lastRow
          ((r0 :: rrest).map (fun r => getValues s.headers r)) := hg
      have hlast : s2.lastRow = (setValuesAt s.grid s.lastRow
          ((r0 :: rrest).map (fun r => getValues s.headers r))).length := hl
      rw [hlr, setValuesAt_append] at hgrid
      rw [hlr, setValuesAt_append] at hlast
      have hid : s.nextId ≤ row.id := hrid
      refine ⟨hgrid, ?_, row, hrm, hrline, hrmap, ?_⟩
      · rw [hlast]; simp
      · intro r hr he
        have := hf.1 r hr
        omega

/-- C2 witness: the duplicate append on a concrete one-key table lands in
the grid, is absent from the index, and its handle sits in the row set. -/
theorem claim2_witness :
    ([[.str "k"], [.num 1], [.num 1]] : List (List CellValue)) =
      [[.str "k"], [.num 1]] ++
        [[("k", some (.num 1))]].map (fun r => getValues ["k"] r) ∧
    (3 : Nat) = ([[.str "k"], [.num 1]] : List (List CellValue)).length + 1 ∧
    ∃ row, row ∈ [(⟨0, [("k", some (.num 1))], 2⟩ : SheetRow), ⟨1, [("k", some (.num 1))], 3⟩] ∧
      row.line = 3 ∧
      mapGet [([Json.num 1], 0)] (getRecordHash ["k"] row.record) ≠ some row.id ∧
      ∀ r ∈ [(⟨0, [("k", some (.num 1))], 2⟩ : SheetRow)], r.id ≠ row.id := by
  have := claim2_amended ["k"]
    { grid := [[.str "k"], [.num 1]], headers := ["k"],
      rows := [⟨0, [("k", some (.num 1))], 2⟩], keyMap := [([.num 1], 0)],
      lastRow := 2, rangeLastRow := 2, nextId := 1 }
    [[("k", some (.num 1))]]
    { grid := [[.str "k"], [.num 1], [.num 1]], headers := ["k"],
      rows := [⟨0, [("k", some (.num 1))], 2⟩, ⟨1, [("k", some (.num 1))], 3⟩],
      keyMap := [([.num 1], 0)],
      lastRow := 3, rangeLastRow := 3, nextId := 2 } 2 3
    (by decide)
    ⟨by decide, by decide⟩
    (by decide)
  exact this

/-- C6: a successful `addRecords` call appends the `M` encoded rows as one
contiguous block at the current end of the occupied rectangle, advances
the end-of-table counter (and the cached range extent) by `M`, and returns
`M` new handles holding the input records in input order whose physical
lines are `grid.length + i + 1` for `i < M` — i.e. with `N` existing data
rows under one header row these are the `N+1`-st through `N+M`-th data
lines. -/
theorem claim6_addRecords (kh : List String) (s : TableState) (records : List RowRecord)
    (s2 : TableState) (out : List SheetRow)
    (hlr : s.lastRow = s.grid.length) (hrlr : s.rangeLastRow = s.grid.length)
    (hne : records ≠ [])
    (h : addRecords kh s records = .ok s2 out) :
    s2.grid = s.grid ++ records.map (fun r => getValues s.headers r) ∧
    s2.lastRow = s.grid.length + records.length ∧
    s2.rangeLastRow = s.grid.length + records.length ∧
    out.map (fun r => r.record) = records ∧
    out.map (fun r => r.line) =
      (List.range records.length).map (fun i => s.grid.length + i + 1) ∧
    out.length = records.length := by
  cases records with
  | nil => exact absurd rfl hne
  | cons r0 rrest =>
    rw [addRecords_cons_eq] at h
    split at h
    · next s3 out2 hc =>
      injection h with h1 h2
      rw [h1, h2] at hc
      obtain ⟨hg, _, hl, hrl, hrec, hline, hlen⟩ :=
        createRowsGo_ok_inv kh s.rangeLastRow (r0 :: rrest) _ 0 [] s2 out hc
      have hgrid : s2.grid = setValuesAt s.grid s.lastRow
          ((r0 :: rrest).map (fun r => getValues s.headers r)) := hg
      have hlast : s2.lastRow = (setValuesAt s.grid s.lastRow
          ((r0 :: rrest).map (fun r => getValues s.headers r))).length := hl
      have hrange : s2.rangeLastRow = (setValuesAt s.grid s.lastRow
          ((r0 :: rrest).map (fun r => getValues s.headers r))).length := hrl
      rw [hlr, setValuesAt_append] at hgrid hlast hrange
      refine ⟨hgrid, by rw [hlast]; simp, by rw [hrange]; simp, ?_, ?_, ?_⟩
      · rw [hrec]; simp
      · rw [hline, hrlr]
        simp only [List.map_nil, List.nil_append]
        apply List.map_congr_left
        intro a _
        omega
      · rw [hlen]; simp
    · exact absurd h (by simp)

/-- C6 witness: appending two records to a concrete empty one-column table
yields handles on physical lines 2 and 3 holding the records in order,
with the extent advanced from 1 to 3. -/
theorem claim6_witness :
    ([[.str "id"], [.num 1], [.num 2]] : List (List CellValue)) =
      [[.str "id"]] ++
        [[("id", some (.num 1))], [("id", some (.num 2))]].map
          (fun r => getValues ["id"] r) ∧
    (3 : Nat) = ([[.str "id"]] : List (List CellValue)).length + 2 ∧
    (3 : Nat) = ([[.str "id"]] : List (List CellValue)).length + 2 ∧
    ([(⟨0, [("id", some (.num 1))], 2⟩ : SheetRow), ⟨1, [("id", some (.num 2))], 3⟩].map
        (fun r => r.record)) =
      [[("id", some (.num 1))], [("id", some (.num 2))]] ∧
    ([(⟨0, [("id", some (.num 1))], 2⟩ : SheetRow), ⟨1, [("id", some (.num 2))], 3⟩].map
        (fun r => r.line)) =
      (List.range 2).map (fun i => ([[.str "id"]] : List (List CellValue)).length + i + 1) ∧
    ([(⟨0, [("id", some (.num 1))], 2⟩ : SheetRow), ⟨1, [("id", some (.num 2))], 3⟩]).length = 2 := by
  have := claim6_addRecords ["id"]
    { grid := [[.str "id"]], headers := ["id"], rows := [], keyMap := [],
      lastRow := 1, rangeLastRow := 1, nextId := 0 }
    [[("id", some (.num 1))], [("id", some (.num 2))]]
    { grid := [[.str "id"], [.num 1], [.num 2]], headers := ["id"],
      rows := [⟨0, [("id", some (.num 1))], 2⟩, ⟨1, [("id", some (.num 2))], 3⟩],
      keyMap := [([.num 1], 0), ([.num 2], 1)],
      lastRow := 3, rangeLastRow := 3, nextId := 2 }
    [⟨0, [("id", some (.num 1))], 2⟩, ⟨1, [("id", some (.num 2))], 3⟩]
    (by decide) (by decide) (by decide) (by decide)
  exact this

/-- C7 (amended): `SheetTable` construction over a header row containing an
empty, non-string, or duplicate cell fails with the corresponding schema
error (in the code's precedence order: empty, then non-string, then
duplicate), and no store — hence no row handle — is produced; the
`SheetObject` variant, however, skips header validation entirely when the
grid consists of the header row alone, and such a construction succeeds
with an empty handle set even over an invalid header. -/
theorem claim7_amended (mand kh : List String) (headerRow : List CellValue)
    (dataRows : List (List CellValue)) (hne : headerRow ≠ []) :
    (hasEmptyHeader headerRow = true →
      construct mand kh (headerRow :: dataRows) = .error .emptyHeader) ∧
    (hasEmptyHeader headerRow = false → hasNonStringHeader headerRow = true →
      construct mand kh (headerRow :: dataRows) = .error .nonStringHeader) ∧
    (hasEmptyHeader headerRow = false → hasNonStringHeader headerRow = false →
      hasDuplicateHeader headerRow = true →
      construct mand kh (headerRow :: dataRows) = .error .duplicateHeader) ∧
    getSheetRowsAsObjects [headerRow] = .ok [] ∧
    objConstruct kh [headerRow] =
      .ok { grid := [headerRow], header := headerRow, rows := [],
            rowsByKeysMap := [], lastRow := 1 } := by
  have hni : headerRow.isEmpty = false := by
    cases headerRow with
    | nil => exact absurd rfl hne
    | cons a t => rfl
  have hg : getSheetRowsAsObjects [headerRow] = .ok [] := by
    simp [getSheetRowsAsObjects]
  refine ⟨fun h1 => ?_, fun h1 h2 => ?_, fun h1 h2 h3 => ?_, hg, ?_⟩
  · simp [construct, hni, h1]
  · simp [construct, hni, h1, h2]
  · simp [construct, hni, h1, h2, h3]
  · simp only [objConstruct, hg]
    by_cases hkh : kh = []
    · simp [hkh]
    · simp [hkh, indexAllGo]

/-- C7 witness: the three schema failures on concrete bad header rows, and
the concrete header-only duplicate-header table that the legacy variant
accepts. -/
theorem claim7_witness :
    construct [] [] [[.str "", .str "id"]] = .error .emptyHeader ∧
    construct [] [] [[.num 5]] = .error .nonStringHeader ∧
    construct [] [] [[.str "id", .str "id"], [.num 1, .num 2]] = .error .duplicateHeader ∧
    getSheetRowsAsObjects [[.str "x", .str "x"]] = .ok [] ∧
    objConstruct ["x"] [[.str "x", .str "x"]] =
      .ok { grid := [[.str "x", .str "x"]], header := [.str "x", .str "x"], rows := [],
            rowsByKeysMap := [], lastRow := 1 } :=
  ⟨(claim7_amended [] [] [.str "", .str "id"] [] (by decide)).1 (by decide),
   (claim7_amended [] [] [.num 5] [] (by decide)).2.1 (by decide) (by decide),
   (claim7_amended [] [] [.str "id", .str "id"] [[.num 1, .num 2]] (by decide)).2.2.1
     (by decide) (by decide) (by decide),
   (claim7_amended [] ["x"] [.str "x", .str "x"] [] (by decide)).2.2.2.1,
   (claim7_amended [] ["x"] [.str "x", .str "x"] [] (by decide)).2.2.2.2⟩

theorem construct_cons_eq (mandatoryHeaders kh : List String) (headerRow : List CellValue)
    (dataRows : List (List CellValue)) :
    construct mandatoryHeaders kh (headerRow :: dataRows) =
      (if headerRow.isEmpty then .error .emptyTable
       else if hasEmptyHeader headerRow then .error .emptyHeader
       else if hasNonStringHeader headerRow then .error .nonStringHeader
       else if hasDuplicateHeader headerRow then .error .duplicateHeader
       else if ((uniqFirst (kh ++ mandatoryHeaders)).filter
           (fun h => !((headerRow.map cellName).contains h))).isEmpty then
         match createRowsGo kh 1
             { grid := headerRow :: dataRows, headers := headerRow.map cellName,
               rows := [], keyMap := [],
               lastRow := (headerRow :: dataRows).length,
               rangeLastRow := (headerRow :: dataRows).length, nextId := 0 }
             (dataRows.map (decodeRow (headerRow.map cellName))) 0 [] with
         | .ok s _ => .ok s
         | .dupKey _ el nl => .error (.duplicateKey el nl)
       else .error (.missingMandatoryHeaders ((uniqFirst (kh ++ mandatoryHeaders)).filter
           (fun h => !((headerRow.map cellName).contains h))))) := rfl

/-- C8 (amended): in the `SheetTable` variant, once the header row itself is
valid, construction fails with an error carrying exactly the
declared-but-undiscovered header names (key headers first, deduplicated,
in declaration order) whenever any declared mandatory or key header is
missing, and no other construction outcome is that error; the
`SheetObject` variant performs no such validation (see the
counterexample). -/
theorem claim8_amended (mand kh : List String) (headerRow : List CellValue)
    (dataRows : List (List CellValue)) (hne : headerRow ≠ [])
    (h1 : hasEmptyHeader headerRow = false) (h2 : hasNonStringHeader headerRow = false)
    (h3 : hasDuplicateHeader headerRow = false) :
    ((uniqFirst (kh ++ mand)).filter
        (fun h => !(headerRow.map cellName).contains h) ≠ [] →
      construct mand kh (headerRow :: dataRows) =
        .error (.missingMandatoryHeaders
          ((uniqFirst (kh ++ mand)).filter
            (fun h => !(headerRow.map cellName).contains h)))) ∧
    ((uniqFirst (kh ++ mand)).filter
        (fun h => !(headerRow.map cellName).contains h) = [] →
      ∀ l, construct mand kh (headerRow :: dataRows) ≠
        .error (.missingMandatoryHeaders l)) := by
  have hni : headerRow.isEmpty = false := by
    cases headerRow with
    | nil => exact absurd rfl hne
    | cons a t => rfl
  constructor
  · intro hlost
    have hle : ((uniqFirst (kh ++ mand)).filter
        (fun h => !(headerRow.map cellName).contains h)).isEmpty = false := by
      cases hfil : (uniqFirst (kh ++ mand)).filter
          (fun h => !(headerRow.map cellName).contains h) with
      | nil => exact absurd hfil hlost
      | cons a t => rfl
    rw [construct_cons_eq, if_neg (by simp [hni]), if_neg (by simp [h1]),
      if_neg (by simp [h2]), if_neg (by simp [h3]), if_neg (by rw [hle]; simp)]
  · intro hlost l
    have hle : ((uniqFirst (kh ++ mand)).filter
        (fun h => !(headerRow.map cellName).contains h)).isEmpty = true := by
      rw [hlost]; rfl
    rw [construct_cons_eq, if_neg (by simp [hni]), if_neg (by simp [h1]),
      if_neg (by simp [h2]), if_neg (by simp [h3]), if_pos hle]
    split
    · simp
    · simp

/-- C8 witness: constructing with key header `"y"` and mandatory header
`"x"` over the discovered header `["id"]` fails with the error naming
exactly `["y", "x"]`. -/
theorem claim8_witness :
    construct ["x"] ["y"] [[.str "id"], [.num 1]] =
      .error (.missingMandatoryHeaders
        ((uniqFirst (["y"] ++ ["x"])).filter
          (fun h => !(([.str "id"] : List CellValue).map cellName).contains h))) :=
  (claim8_amended ["x"] ["y"] [.str "id"] [[.num 1]]
    (by decide) (by decide) (by decide) (by decide)).1 (by decide)

end SpreadsheetHelper
